import Mathlib

/-!
Verification of the staged-sector allocation and persistence core of
`rust-fil-proofs` (sector builder helpers).

Shallow embedding notes:
- Rust byte strings (`&str` / `&[u8]` / `String`) are modelled as `List Nat`,
  each element one byte.
- `SectorId` is `u64`; identifier derivation wraps modulo `2 ^ 64` exactly as
  the Rust `<<=`/`+=` on `u64` do.
- `UnpaddedBytesAmount` is a `u64` newtype; its arithmetic is modelled on `Nat`
  (the subtraction in the placement scan uses truncated subtraction, which
  agrees with `u64` subtraction whenever occupancy does not exceed capacity —
  the documented state invariant).
- The `HashMap<SectorId, StagedSectorMetadata>` is modelled as an association
  list `List (Nat × StagedSectorMetadata)` whose order stands for the map's
  iteration order; `insert` replaces the entry in place when the key is
  present (HashMap semantics), otherwise appends.
- Fallible Rust code returning `error::Result` is modelled with `Except`.
- Effectful collaborators (sector manager, key-value store) are records of
  functions; `add_piece`'s mutation of `StagedState` is explicit state
  passing: it returns the result together with the final state, also on the
  error paths, so that error-path state effects are visible.
-/

/-- Error kinds produced by the sector-builder helpers
(`err_overflow`, `err_inc_write`, `err_unrecov`, the derivation failure,
storage-allocation failure and the persistence deserialization failure). -/
inductive BuilderErr where
  | invalidKey
  | pieceTooLarge (got max : Nat)
  | incompleteWrite (written expected : Nat)
  | sectorNotFound
  | storageAllocationFailed
  | corruptState
  | kvError
deriving DecidableEq, Repr

instance {ε α : Type} [DecidableEq ε] [DecidableEq α] : DecidableEq (Except ε α) := fun a b =>
  match a, b with
  | Except.ok x, Except.ok y =>
    if h : x = y then isTrue (by rw [h]) else isFalse (by simp [h])
  | Except.error x, Except.error y =>
    if h : x = y then isTrue (by rw [h]) else isFalse (by simp [h])
  | Except.ok _, Except.error _ => isFalse (by simp)
  | Except.error _, Except.ok _ => isFalse (by simp)

/-- Modelled from the spec: seal status of a staged sector, a closed enum
`{Pending, Sealing, Sealed, Failed(reason)}`; the defining Rust type is not
under `src/`. Only `Pending` sectors accept new pieces. -/
inductive SealStatus where
  | Pending
  | Sealing
  | Sealed
  | Failed (reason : List Nat)
deriving DecidableEq, Repr

/-- Modelled from the spec: `PieceMetadata { piece_key, num_bytes }`; the
defining Rust type (metadata module) is not under `src/`. -/
structure PieceMetadata where
  piece_key : List Nat
  num_bytes : Nat
deriving DecidableEq, Repr

/-- Modelled from the spec: `StagedSectorMetadata { sector_id, sector_access,
pieces, seal_status }`; the defining Rust type is not under `src/`. -/
structure StagedSectorMetadata where
  sector_id : Nat
  sector_access : List Nat
  pieces : List PieceMetadata
  seal_status : SealStatus
deriving DecidableEq, Repr

/-- Modelled from the spec: `StagedState { sector_id_nonce, sectors }`; the
defining Rust type (state module) is not under `src/`. The association list
models the map together with its iteration order. -/
structure StagedState where
  sector_id_nonce : Nat
  sectors : List (Nat × StagedSectorMetadata)
deriving DecidableEq, Repr

/-- Modelled from the spec: `SectorBuilderState`, the top-level persisted
aggregate containing the `StagedState` (the parallel sealed-sector state is
out of scope); the defining Rust type is not under `src/`. -/
structure SectorBuilderState where
  staged : StagedState
deriving DecidableEq, Repr

/-- Modelled from the spec: `sum_piece_bytes`, the occupancy of a staged
sector — the sum of `num_bytes` over its pieces; the defining Rust function
(metadata module) is not under `src/`. -/
def sum_piece_bytes (s : StagedSectorMetadata) : Nat :=
  (s.pieces.map PieceMetadata.num_bytes).sum

/-- The storage collaborator (`SectorManager`): allocation of a staging
access handle for a sector id, and the write-and-preprocess operation
returning the count of bytes written. -/
structure SectorManager where
  new_staging_sector_access : Nat → Except BuilderErr (List Nat)
  write_and_preprocess : List Nat → List Nat → Except BuilderErr Nat

/-- HashMap lookup on the association list: the value stored under `k`. -/
def lookupSector (sectors : List (Nat × StagedSectorMetadata)) (k : Nat) :
    Option StagedSectorMetadata :=
  match sectors with
  | [] => none
  | (k', v) :: rest => if k' = k then some v else lookupSector rest k

/-- HashMap `insert` on the association list: replaces the value in place
when the key is already present, otherwise appends the new entry. -/
def insertSector (sectors : List (Nat × StagedSectorMetadata)) (k : Nat)
    (v : StagedSectorMetadata) : List (Nat × StagedSectorMetadata) :=
  match sectors with
  | [] => [(k, v)]
  | (k', v') :: rest =>
    if k' = k then (k, v) :: rest else (k', v') :: insertSector rest k v

/-- The `get_mut` + `pieces.push` step of `add_piece`: appends a piece to the
piece list of the entry stored under `k` (no-op when `k` is absent). -/
def pushPiece (sectors : List (Nat × StagedSectorMetadata)) (k : Nat)
    (pm : PieceMetadata) : List (Nat × StagedSectorMetadata) :=
  match sectors with
  | [] => []
  | (k', v) :: rest =>
    if k' = k then (k', { v with pieces := v.pieces ++ [pm] }) :: rest
    else (k', v) :: pushPiece rest k pm

/-- One step of the big-endian accumulation of `get_sectorid_from_cid`:
`sector_id <<= 8; sector_id += b` on `u64`, i.e. modulo `2 ^ 64`. -/
def beFold (l : List Nat) (acc : Nat) : Nat :=
  match l with
  | [] => acc
  | b :: rest => beFold rest ((acc * 256 + b) % 2 ^ 64)

/-- Accumulating big-endian value of a byte string, without wraparound;
the spec-side counterpart of `beFold`. -/
def beValAux (l : List Nat) (acc : Nat) : Nat :=
  match l with
  | [] => acc
  | b :: rest => beValAux rest (acc * 256 + b)

/-- Spec-side big-endian value of a byte string (no wraparound); used to
state what the derivation computes. -/
def beVal (l : List Nat) : Nat :=
  beValAux l 0

/-- Embeds `get_sectorid_from_cid`: fails when the key has fewer than
8 bytes, otherwise folds the last 8 bytes big-endian into a `u64`. -/
def get_sectorid_from_cid (cid : List Nat) : Except BuilderErr Nat :=
  if cid.length < 8 then Except.error BuilderErr.invalidKey
  else Except.ok (beFold (cid.drop (cid.length - 8)) 0)

/-- Embeds `compute_destination_sector_id`: errors with `err_overflow` when
the piece exceeds the per-sector capacity, otherwise returns the sector id of
the first candidate with enough remaining capacity, or `none`. -/
def compute_destination_sector_id (candidate_sectors : List StagedSectorMetadata)
    (max_bytes_per_sector : Nat) (num_bytes_in_piece : Nat) :
    Except BuilderErr (Option Nat) :=
  if num_bytes_in_piece > max_bytes_per_sector then
    Except.error (BuilderErr.pieceTooLarge num_bytes_in_piece max_bytes_per_sector)
  else
    Except.ok
      ((candidate_sectors.find? fun staged_sector =>
          decide (max_bytes_per_sector - sum_piece_bytes staged_sector ≥ num_bytes_in_piece)).map
        StagedSectorMetadata.sector_id)

/-- Embeds `provision_new_staged_sector`: takes the current nonce as the new
sector id, requests a staging access, inserts fresh metadata (empty pieces,
`Pending`) into the map, and returns the id together with the updated state. -/
def provision_new_staged_sector (sector_manager : SectorManager)
    (staged_state : StagedState) : Except BuilderErr (Nat × StagedState) :=
  let sector_id := staged_state.sector_id_nonce
  match sector_manager.new_staging_sector_access sector_id with
  | Except.error e => Except.error e
  | Except.ok access =>
    let meta : StagedSectorMetadata :=
      { pieces := [], sector_access := access, sector_id := sector_id,
        seal_status := SealStatus.Pending }
    Except.ok (sector_id,
      { staged_state with sectors := insertSector staged_state.sectors meta.sector_id meta })

/-- The Pending-status candidates collected by `add_piece`, in the map's
iteration order (the cloned values of the filtered entries). -/
def pendingCandidates (st : StagedState) : List StagedSectorMetadata :=
  (st.sectors.filter fun kv => decide (kv.2.seal_status = SealStatus.Pending)).map Prod.snd

/-- The lookup/write/record tail of `add_piece`: looks the destination up in
the map (`err_unrecov` when absent), calls `write_and_preprocess`, fails with
`err_inc_write` on a byte-count mismatch, and otherwise appends the
`PieceMetadata` and returns the destination sector's id. -/
def writeStage (mgr : SectorManager) (st : StagedState) (dest : Nat)
    (piece_key : List Nat) (piece_bytes : List Nat) :
    Except BuilderErr Nat × StagedState :=
  match lookupSector st.sectors dest with
  | none => (Except.error BuilderErr.sectorNotFound, st)
  | some s =>
    match mgr.write_and_preprocess s.sector_access piece_bytes with
    | Except.error e => (Except.error e, st)
    | Except.ok num_bytes_written =>
      if num_bytes_written ≠ piece_bytes.length then
        (Except.error (BuilderErr.incompleteWrite num_bytes_written piece_bytes.length), st)
      else
        (Except.ok s.sector_id,
          { st with sectors :=
              pushPiece st.sectors dest ⟨piece_key, piece_bytes.length⟩ })

/-- Embeds `add_piece`: derives the nonce from the piece key, stores it,
collects Pending candidates, runs placement, provisions on no-fit, then runs
the write stage. Returns the result together with the final state. -/
def add_piece (mgr : SectorManager) (sector_max : Nat) (st : StagedState)
    (piece_key : List Nat) (piece_bytes : List Nat) :
    Except BuilderErr Nat × StagedState :=
  match get_sectorid_from_cid piece_key with
  | Except.error e => (Except.error e, st)
  | Except.ok nonce =>
    let st1 : StagedState := { st with sector_id_nonce := nonce }
    match compute_destination_sector_id (pendingCandidates st1) sector_max
        piece_bytes.length with
    | Except.error e => (Except.error e, st1)
    | Except.ok (some dest) => writeStage mgr st1 dest piece_key piece_bytes
    | Except.ok none =>
      match provision_new_staged_sector mgr st1 with
      | Except.error e => (Except.error e, st1)
      | Except.ok (dest, st2) => writeStage mgr st2 dest piece_key piece_bytes

/-- Concatenation of the encodings of the elements of a list. -/
def encList {α : Type} (enc : α → List Nat) (l : List α) : List Nat :=
  match l with
  | [] => []
  | a :: rest => enc a ++ encList enc rest

/-- Decoder for a count-prefixed sequence: runs `dec` exactly `n` times. -/
def decListN {α : Type} (dec : List Nat → Option (α × List Nat)) :
    Nat → List Nat → Option (List α × List Nat)
  | 0, rest => some ([], rest)
  | n + 1, rest =>
    match dec rest with
    | some (a, rest1) =>
      match decListN dec n rest1 with
      | some (as, rest2) => some (a :: as, rest2)
      | none => none
    | none => none

/-- Modelled from the spec: persistence encoding of a `SealStatus` (tagged
variant). The source uses `serde_cbor`, a self-describing tagged binary
encoding whose derive implementations are not under `src/`. -/
def encSeal : SealStatus → List Nat
  | SealStatus.Pending => [0]
  | SealStatus.Sealing => [1]
  | SealStatus.Sealed => [2]
  | SealStatus.Failed reason => 3 :: reason.length :: reason

/-- Modelled from the spec: decoder matching `encSeal`. -/
def decSeal : List Nat → Option (SealStatus × List Nat)
  | 0 :: rest => some (SealStatus.Pending, rest)
  | 1 :: rest => some (SealStatus.Sealing, rest)
  | 2 :: rest => some (SealStatus.Sealed, rest)
  | 3 :: n :: rest =>
    if n ≤ rest.length then some (SealStatus.Failed (rest.take n), rest.drop n)
    else none
  | _ => none

/-- Modelled from the spec: persistence encoding of a `PieceMetadata`
(length-prefixed key, then the byte count). -/
def encPiece (p : PieceMetadata) : List Nat :=
  p.piece_key.length :: p.piece_key ++ [p.num_bytes]

/-- Modelled from the spec: decoder matching `encPiece`. -/
def decPiece : List Nat → Option (PieceMetadata × List Nat)
  | n :: rest =>
    if n ≤ rest.length then
      match rest.drop n with
      | nb :: r => some (⟨rest.take n, nb⟩, r)
      | [] => none
    else none
  | [] => none

/-- Modelled from the spec: persistence encoding of a `StagedSectorMetadata`
(id, length-prefixed access handle, count-prefixed piece list, status). -/
def encMeta (m : StagedSectorMetadata) : List Nat :=
  m.sector_id :: m.sector_access.length :: m.sector_access ++
    m.pieces.length :: encList encPiece m.pieces ++ encSeal m.seal_status

/-- Modelled from the spec: decoder matching `encMeta`. -/
def decMeta (l : List Nat) : Option (StagedSectorMetadata × List Nat) :=
  match l with
  | sid :: alen :: rest =>
    if alen ≤ rest.length then
      match rest.drop alen with
      | plen :: rest2 =>
        match decListN decPiece plen rest2 with
        | some (pieces, rest3) =>
          match decSeal rest3 with
          | some (status, rest4) => some (⟨sid, rest.take alen, pieces, status⟩, rest4)
          | none => none
        | none => none
      | [] => none
    else none
  | _ => none

/-- Modelled from the spec: persistence encoding of one map entry
(key, then the metadata). -/
def encEntry (kv : Nat × StagedSectorMetadata) : List Nat :=
  kv.1 :: encMeta kv.2

/-- Modelled from the spec: decoder matching `encEntry`. -/
def decEntry : List Nat → Option ((Nat × StagedSectorMetadata) × List Nat)
  | k :: rest =>
    match decMeta rest with
    | some (m, r) => some ((k, m), r)
    | none => none
  | [] => none

/-- Modelled from the spec: persistence encoding of a `StagedState`
(nonce, then the count-prefixed entry sequence). -/
def encStaged (st : StagedState) : List Nat :=
  st.sector_id_nonce :: st.sectors.length :: encList encEntry st.sectors

/-- Modelled from the spec: decoder matching `encStaged`. -/
def decStaged : List Nat → Option (StagedState × List Nat)
  | nonce :: cnt :: rest =>
    match decListN decEntry cnt rest with
    | some (secs, r) => some (⟨nonce, secs⟩, r)
    | none => none
  | _ => none

/-- Modelled from the spec: serialization of the full `SectorBuilderState`
(the payload stored under the prover identity). -/
def serializeSectorBuilderState (s : SectorBuilderState) : List Nat :=
  encStaged s.staged

/-- Modelled from the spec: deserialization of a persisted payload; fails
(`none`) on any malformed or trailing input, mirroring `serde_cbor::from_slice`. -/
def deserializeSectorBuilderState (l : List Nat) : Option SectorBuilderState :=
  match decStaged l with
  | some (st, []) => some ⟨st⟩
  | _ => none

/-- The key-value collaborator: `get` fetches the raw value stored under a
byte key, and may itself fail. -/
structure KeyValueStore where
  get : List Nat → Except BuilderErr (Option (List Nat))

/-- Modelled from the spec: the `save` path of persistence — stores the value
under the key atomically, so a subsequent `get` of that key returns it. -/
def kvPut (kv : KeyValueStore) (key value : List Nat) : KeyValueStore :=
  { get := fun k => if k = key then Except.ok (some value) else kv.get k }

/-- Embeds `load_sector_builder_state`: fetches the raw value under the
prover identity, returns `none` when absent, and otherwise deserializes,
failing with the corrupt-state error when deserialization fails. -/
def load_sector_builder_state (kv_store : KeyValueStore) (prover_id : List Nat) :
    Except BuilderErr (Option SectorBuilderState) :=
  match kv_store.get prover_id with
  | Except.error e => Except.error e
  | Except.ok none => Except.ok none
  | Except.ok (some val) =>
    match deserializeSectorBuilderState val with
    | none => Except.error BuilderErr.corruptState
    | some s => Except.ok (some s)

/-- Test fixture: a storage manager whose allocation always yields the empty
access handle and whose writes always report the full requested length. -/
def testMgrOk : SectorManager :=
  { new_staging_sector_access := fun _ => Except.ok [],
    write_and_preprocess := fun _ bytes => Except.ok bytes.length }

/-- Test fixture: a storage manager whose writes report one byte short. -/
def testMgrShort : SectorManager :=
  { new_staging_sector_access := fun _ => Except.ok [],
    write_and_preprocess := fun _ bytes => Except.ok (bytes.length - 1) }

example :
    compute_destination_sector_id
      [⟨0, [], [⟨[120], 5⟩, ⟨[120], 10⟩], SealStatus.Pending⟩,
       ⟨0, [], [⟨[120], 5⟩], SealStatus.Pending⟩] 100 85 =
      Except.ok (some 0) := by decide

example :
    compute_destination_sector_id
      [⟨1, [], [⟨[120], 5⟩, ⟨[120], 10⟩], SealStatus.Pending⟩,
       ⟨2, [], [⟨[120], 5⟩], SealStatus.Pending⟩] 100 90 =
      Except.ok (some 2) := by decide

example :
    compute_destination_sector_id
      [⟨1, [], [⟨[120], 5⟩], SealStatus.Pending⟩] 100 101 =
      Except.error (BuilderErr.pieceTooLarge 101 100) := by decide

example : get_sectorid_from_cid [1, 2, 3, 4, 5, 6, 7] =
    Except.error BuilderErr.invalidKey := by decide

example : get_sectorid_from_cid [1, 2, 3, 4, 5, 6, 7, 8] =
    Except.ok 0x0102030405060708 := by decide

example : get_sectorid_from_cid [9, 1, 2, 3, 4, 5, 6, 7, 8] =
    Except.ok 0x0102030405060708 := by decide

theorem decSeal_encSeal (s : SealStatus) (r : List Nat) :
    decSeal (encSeal s ++ r) = some (s, r) := by
  cases s with
  | Pending => rfl
  | Sealing => rfl
  | Sealed => rfl
  | Failed reason =>
    simp [encSeal, decSeal, List.take_left, List.drop_left, List.length_append,
      Nat.le_add_right]

theorem decPiece_encPiece (p : PieceMetadata) (r : List Nat) :
    decPiece (encPiece p ++ r) = some (p, r) := by
  simp [encPiece, decPiece, List.append_assoc, List.take_left, List.drop_left,
    List.length_append, Nat.le_add_right]

theorem decListN_encList {α : Type} (dec : List Nat → Option (α × List Nat))
    (enc : α → List Nat) (h : ∀ a r, dec (enc a ++ r) = some (a, r)) :
    ∀ (l : List α) (r : List Nat),
      decListN dec l.length (encList enc l ++ r) = some (l, r) := by
  intro l
  induction l with
  | nil => intro r; simp [encList, decListN]
  | cons a as ih => intro r; simp [encList, decListN, List.append_assoc, h, ih]

theorem decMeta_encMeta (m : StagedSectorMetadata) (r : List Nat) :
    decMeta (encMeta m ++ r) = some (m, r) := by
  simp [encMeta, decMeta, List.append_assoc, List.take_left, List.drop_left,
    List.length_append, Nat.le_add_right,
    decListN_encList decPiece encPiece decPiece_encPiece, decSeal_encSeal]

theorem decEntry_encEntry (kv : Nat × StagedSectorMetadata) (r : List Nat) :
    decEntry (encEntry kv ++ r) = some (kv, r) := by
  simp [encEntry, decEntry, List.append_assoc, decMeta_encMeta]

theorem decStaged_encStaged (st : StagedState) (r : List Nat) :
    decStaged (encStaged st ++ r) = some (st, r) := by
  simp [encStaged, decStaged, List.append_assoc,
    decListN_encList decEntry encEntry decEntry_encEntry]

theorem deserialize_serialize (s : SectorBuilderState) :
    deserializeSectorBuilderState (serializeSectorBuilderState s) = some s := by
  have h := decStaged_encStaged s.staged []
  rw [List.append_nil] at h
  simp [serializeSectorBuilderState, deserializeSectorBuilderState, h]

theorem find_first_of_split {α : Type} (pred : α → Bool) (l1 : List α) (s : α)
    (l2 : List α) (hs : pred s = true) (h1 : ∀ t ∈ l1, pred t = false) :
    (l1 ++ s :: l2).find? pred = some s := by
  induction l1 with
  | nil => simp [List.find?_cons_of_pos, hs]
  | cons a as ih =>
    have ha : pred a = false := h1 a (List.mem_cons_self a as)
    rw [List.cons_append, List.find?_cons_of_neg _ (by simp [ha])]
    exact ih fun t ht => h1 t (List.mem_cons_of_mem a ht)

theorem beFold_eq_beValAux : ∀ (l : List Nat) (acc : Nat), (∀ b ∈ l, b < 256) →
    (acc + 1) * 256 ^ l.length ≤ 2 ^ 64 → beFold l acc = beValAux l acc := by
  intro l
  induction l with
  | nil => intro acc _ _; rfl
  | cons b rest ih =>
    intro acc hb hbound
    have hblt : b < 256 := hb b (List.mem_cons_self b rest)
    have hq : 0 < 256 ^ rest.length := Nat.pos_pow_of_pos _ (by omega)
    have hbound' : (acc + 1) * 256 * 256 ^ rest.length ≤ 2 ^ 64 := by
      calc (acc + 1) * 256 * 256 ^ rest.length
          = (acc + 1) * 256 ^ (rest.length + 1) := by ring
        _ ≤ 2 ^ 64 := by simpa using hbound
    have hstep1 : (acc * 256 + b + 1) * 256 ^ rest.length ≤ 2 ^ 64 := by
      calc (acc * 256 + b + 1) * 256 ^ rest.length
          ≤ ((acc + 1) * 256) * 256 ^ rest.length := by
            apply Nat.mul_le_mul_right
            omega
        _ ≤ 2 ^ 64 := hbound'
    have hlt : acc * 256 + b < 2 ^ 64 := by
      have h1 : (acc * 256 + b + 1) * 1 ≤ (acc * 256 + b + 1) * 256 ^ rest.length :=
        Nat.mul_le_mul_left _ hq
      omega
    have hmod : (acc * 256 + b) % 2 ^ 64 = acc * 256 + b := Nat.mod_eq_of_lt hlt
    show beFold rest ((acc * 256 + b) % 2 ^ 64) = beValAux rest (acc * 256 + b)
    rw [hmod]
    exact ih (acc * 256 + b) (fun x hx => hb x (List.mem_cons_of_mem b hx)) hstep1

theorem lookup_insertSector_self (secs : List (Nat × StagedSectorMetadata))
    (k : Nat) (v : StagedSectorMetadata) :
    lookupSector (insertSector secs k v) k = some v := by
  induction secs with
  | nil => simp [insertSector, lookupSector]
  | cons kv rest ih =>
    by_cases h : kv.1 = k
    · simp [insertSector, lookupSector, h]
    · simp [insertSector, lookupSector, h, ih]

theorem lookup_insertSector_ne (secs : List (Nat × StagedSectorMetadata))
    (k k' : Nat) (v : StagedSectorMetadata) (hne : k' ≠ k) :
    lookupSector (insertSector secs k v) k' = lookupSector secs k' := by
  have hkk : k ≠ k' := Ne.symm hne
  induction secs with
  | nil => simp [insertSector, lookupSector, hkk]
  | cons kv rest ih =>
    by_cases h : kv.1 = k
    · simp [insertSector, lookupSector, h, hkk]
    · simp only [insertSector, lookupSector, if_neg h]
      by_cases h2 : kv.1 = k'
      · simp [h2]
      · simp [h2, ih]

theorem lookup_of_mem (secs : List (Nat × StagedSectorMetadata)) (k : Nat)
    (v : StagedSectorMetadata) (h : (k, v) ∈ secs) :
    ∃ w, lookupSector secs k = some w := by
  induction secs with
  | nil => simp at h
  | cons kv rest ih =>
    by_cases hk : kv.1 = k
    · exact ⟨kv.2, by simp [lookupSector, hk]⟩
    · rcases List.mem_cons.mp h with heq | hmem
      · exact absurd (congrArg Prod.fst heq.symm) hk
      · rcases ih hmem with ⟨w, hw⟩
        exact ⟨w, by simp [lookupSector, hk, hw]⟩

theorem lookup_pushPiece_self (secs : List (Nat × StagedSectorMetadata)) (k : Nat)
    (s : StagedSectorMetadata) (pm : PieceMetadata)
    (h : lookupSector secs k = some s) :
    lookupSector (pushPiece secs k pm) k = some { s with pieces := s.pieces ++ [pm] } := by
  induction secs with
  | nil => simp [lookupSector] at h
  | cons kv rest ih =>
    by_cases hk : kv.1 = k
    · simp [lookupSector, hk] at h
      simp [pushPiece, lookupSector, hk, h]
    · simp only [lookupSector, if_neg hk] at h
      simp [pushPiece, lookupSector, hk, ih h]

theorem provision_spec (mgr : SectorManager) (st : StagedState) (id : Nat)
    (st1 : StagedState) (h : provision_new_staged_sector mgr st = Except.ok (id, st1)) :
    id = st.sector_id_nonce ∧ st1.sector_id_nonce = st.sector_id_nonce ∧
      ∃ access, mgr.new_staging_sector_access st.sector_id_nonce = Except.ok access ∧
        st1.sectors = insertSector st.sectors id ⟨id, access, [], SealStatus.Pending⟩ := by
  unfold provision_new_staged_sector at h
  cases ha : mgr.new_staging_sector_access st.sector_id_nonce with
  | error e => simp only [ha] at h; exact absurd h (by simp)
  | ok access =>
    simp only [ha] at h
    simp only [Except.ok.injEq, Prod.mk.injEq] at h
    obtain ⟨h1, h2⟩ := h
    subst h1
    subst h2
    exact ⟨rfl, rfl, access, rfl, rfl⟩

theorem writeStage_nonce (mgr : SectorManager) (st : StagedState) (dest : Nat)
    (key bytes : List Nat) :
    ((writeStage mgr st dest key bytes).2).sector_id_nonce = st.sector_id_nonce := by
  cases hls : lookupSector st.sectors dest with
  | none => simp [writeStage, hls]
  | some s =>
    cases hw : mgr.write_and_preprocess s.sector_access bytes with
    | error e => simp [writeStage, hls, hw]
    | ok n =>
      by_cases hn : n = bytes.length
      · simp [writeStage, hls, hw, hn]
      · simp [writeStage, hls, hw, hn]

theorem compute_destination_some (cs : List StagedSectorMetadata) (c p dest : Nat)
    (h : compute_destination_sector_id cs c p = Except.ok (some dest)) :
    ∃ s ∈ cs, s.sector_id = dest := by
  unfold compute_destination_sector_id at h
  by_cases hp : p > c
  · rw [if_pos hp] at h; exact absurd h (by simp)
  · rw [if_neg hp] at h
    simp only [Except.ok.injEq, Option.map_eq_some'] at h
    obtain ⟨s, hs, hid⟩ := h
    exact ⟨s, List.mem_of_find?_eq_some hs, hid⟩

theorem mem_pendingCandidates (st : StagedState) (s : StagedSectorMetadata)
    (h : s ∈ pendingCandidates st) : ∃ k, (k, s) ∈ st.sectors := by
  unfold pendingCandidates at h
  rcases List.mem_map.mp h with ⟨kv, hkv, rfl⟩
  exact ⟨kv.1, (List.mem_filter.mp hkv).1⟩


/-- C1: for candidate sectors (capacity `c`, piece length `p ≤ c`, occupancy
within capacity), `compute_destination_sector_id` returns `Ok None` exactly
when no candidate has `c - occupancy ≥ p`, and returns `Ok (Some id)` with
`id` the `sector_id` of the first candidate in iteration order whose
remaining capacity suffices. -/
theorem compute_destination_first_fit (cs : List StagedSectorMetadata) (c p : Nat)
    (hp : p ≤ c) (hocc : ∀ s ∈ cs, sum_piece_bytes s ≤ c) :
    ((∀ s ∈ cs, c < sum_piece_bytes s + p) →
      compute_destination_sector_id cs c p = Except.ok none)
    ∧ (∀ l1 s l2, cs = l1 ++ s :: l2 → sum_piece_bytes s + p ≤ c →
      (∀ t ∈ l1, c < sum_piece_bytes t + p) →
      compute_destination_sector_id cs c p = Except.ok (some s.sector_id)) := by
  constructor
  · intro hall
    unfold compute_destination_sector_id
    rw [if_neg (by omega)]
    have hnone : cs.find? (fun t => decide (c - sum_piece_bytes t ≥ p)) = none := by
      rw [List.find?_eq_none]
      intro t ht
      have h1 := hocc t ht
      have h2 := hall t ht
      simp only [decide_eq_true_eq]
      omega
    rw [hnone]
    rfl
  · intro l1 s l2 hcs hfit hbefore
    unfold compute_destination_sector_id
    rw [if_neg (by omega)]
    subst hcs
    rw [find_first_of_split _ l1 s l2 ?hs ?hbef]
    · rfl
    case hs =>
      simp only [decide_eq_true_eq]
      omega
    case hbef =>
      intro t ht
      have h1 := hocc t (List.mem_append_left _ ht)
      have h2 := hbefore t ht
      simp only [decide_eq_false_iff_not]
      omega

/-- C1 witness: capacity 100, candidates with occupancies 15 and 5, piece of
85 bytes — the first candidate (sector 1) is chosen. -/
theorem compute_destination_first_fit_witness :
    compute_destination_sector_id
      [⟨1, [], [⟨[120], 15⟩], SealStatus.Pending⟩,
       ⟨2, [], [⟨[120], 5⟩], SealStatus.Pending⟩] 100 85 =
      Except.ok (some 1) :=
  (compute_destination_first_fit
      [⟨1, [], [⟨[120], 15⟩], SealStatus.Pending⟩,
       ⟨2, [], [⟨[120], 5⟩], SealStatus.Pending⟩] 100 85
      (by decide) (by decide)).2
    [] ⟨1, [], [⟨[120], 15⟩], SealStatus.Pending⟩
    [⟨2, [], [⟨[120], 5⟩], SealStatus.Pending⟩]
    rfl (by decide) (by decide)

/-- C3: a piece longer than the per-sector capacity fails placement with
`PieceTooLarge` for every candidate list (the check precedes the scan and is
independent of occupancy), and an `add_piece` call with such a piece (and a
derivable key) fails with that error without provisioning any sector and
without modifying the sectors map. -/
theorem piece_too_large_spec (c p : Nat) (hp : p > c) :
    (∀ cs, compute_destination_sector_id cs c p =
      Except.error (BuilderErr.pieceTooLarge p c))
    ∧ (∀ mgr st key bytes, 8 ≤ key.length → bytes.length = p →
      (add_piece mgr c st key bytes).1 = Except.error (BuilderErr.pieceTooLarge p c)
      ∧ ((add_piece mgr c st key bytes).2).sectors = st.sectors) := by
  have hcd : ∀ cs, compute_destination_sector_id cs c p =
      Except.error (BuilderErr.pieceTooLarge p c) := by
    intro cs
    unfold compute_destination_sector_id
    rw [if_pos hp]
  refine ⟨hcd, ?_⟩
  intro mgr st key bytes hk hb
  have hkey : get_sectorid_from_cid key =
      Except.ok (beFold (key.drop (key.length - 8)) 0) := by
    unfold get_sectorid_from_cid
    rw [if_neg (by omega)]
  constructor
  · simp [add_piece, hkey, hb, hcd]
  · simp [add_piece, hkey, hb, hcd]

/-- C3 witness: capacity 100, a piece of 101 bytes, an 8-byte key, empty
initial state — placement fails with `PieceTooLarge` and the sectors map is
untouched. -/
theorem piece_too_large_witness :
    (add_piece testMgrOk 100 ⟨0, []⟩ [1, 2, 3, 4, 5, 6, 7, 8]
        (List.replicate 101 0)).1 =
      Except.error (BuilderErr.pieceTooLarge 101 100)
    ∧ ((add_piece testMgrOk 100 ⟨0, []⟩ [1, 2, 3, 4, 5, 6, 7, 8]
        (List.replicate 101 0)).2).sectors = [] :=
  (piece_too_large_spec 100 101 (by decide)).2 testMgrOk ⟨0, []⟩
    [1, 2, 3, 4, 5, 6, 7, 8] (List.replicate 101 0) (by decide) (by simp)

/-- C5: identifier derivation fails with the invalid-key error for keys
shorter than 8 bytes; for keys of at least 8 bytes it returns the unsigned
big-endian integer of the key's last 8 bytes (all 8 bytes when the key has
exactly 8); and two keys sharing their trailing 8 bytes derive the same
identifier. -/
theorem get_sectorid_spec (cid : List Nat) (hb : ∀ b ∈ cid, b < 256) :
    (cid.length < 8 → get_sectorid_from_cid cid = Except.error BuilderErr.invalidKey)
    ∧ (8 ≤ cid.length →
      get_sectorid_from_cid cid = Except.ok (beVal (cid.drop (cid.length - 8)))
      ∧ (cid.drop (cid.length - 8)).length = 8)
    ∧ (cid.length = 8 → get_sectorid_from_cid cid = Except.ok (beVal cid))
    ∧ (∀ cid2, 8 ≤ cid.length → 8 ≤ cid2.length →
      cid.drop (cid.length - 8) = cid2.drop (cid2.length - 8) →
      get_sectorid_from_cid cid = get_sectorid_from_cid cid2) := by
  have hmain : 8 ≤ cid.length →
      get_sectorid_from_cid cid = Except.ok (beVal (cid.drop (cid.length - 8)))
      ∧ (cid.drop (cid.length - 8)).length = 8 := by
    intro hk
    have hlen : (cid.drop (cid.length - 8)).length = 8 := by
      simp only [List.length_drop]
      omega
    have hfold : beFold (cid.drop (cid.length - 8)) 0 =
        beVal (cid.drop (cid.length - 8)) := by
      apply beFold_eq_beValAux
      · intro b hbmem
        exact hb b (List.mem_of_mem_drop hbmem)
      · rw [hlen]
        norm_num
    constructor
    · unfold get_sectorid_from_cid
      rw [if_neg (by omega), hfold]
    · exact hlen
  refine ⟨?_, hmain, ?_, ?_⟩
  · intro hk
    unfold get_sectorid_from_cid
    rw [if_pos hk]
  · intro hk
    have h8 : cid.length - 8 = 0 := by omega
    have := (hmain (by omega)).1
    rwa [h8, List.drop_zero] at this
  · intro cid2 hk hk2 htails
    unfold get_sectorid_from_cid
    rw [if_neg (by omega), if_neg (by omega), htails]

/-- C5 witness: a 7-byte key fails; the 8-byte key `01..08` and a 9-byte key
with the same trailing 8 bytes both derive `0x0102030405060708`. -/
theorem get_sectorid_witness :
    get_sectorid_from_cid [1, 2, 3, 4, 5, 6, 7] = Except.error BuilderErr.invalidKey
    ∧ get_sectorid_from_cid [1, 2, 3, 4, 5, 6, 7, 8] =
        Except.ok (beVal [1, 2, 3, 4, 5, 6, 7, 8])
    ∧ get_sectorid_from_cid [255, 1, 2, 3, 4, 5, 6, 7, 8] =
        get_sectorid_from_cid [1, 2, 3, 4, 5, 6, 7, 8] :=
  ⟨(get_sectorid_spec [1, 2, 3, 4, 5, 6, 7] (by decide)).1 (by decide),
   (get_sectorid_spec [1, 2, 3, 4, 5, 6, 7, 8] (by decide)).2.2.1 (by decide),
   (get_sectorid_spec [255, 1, 2, 3, 4, 5, 6, 7, 8] (by decide)).2.2.2
     [1, 2, 3, 4, 5, 6, 7, 8] (by decide) (by decide) (by decide)⟩

/-- C6: when derivation succeeds with value `v`, `add_piece` stores `v` into
`sector_id_nonce` before placement or provisioning runs, and the final
state's nonce is `v` on every path — also when the piece lands in an
existing sector and on the later error paths; when provisioning occurs, the
new sector receives exactly the stored nonce as its identifier and is
registered under that key with empty pieces and `Pending` status. -/
theorem nonce_stored_spec (mgr : SectorManager) (c : Nat) (st : StagedState)
    (key bytes : List Nat) (v : Nat)
    (h : get_sectorid_from_cid key = Except.ok v) :
    ((add_piece mgr c st key bytes).2).sector_id_nonce = v
    ∧ (∀ st0 id st1, provision_new_staged_sector mgr st0 = Except.ok (id, st1) →
      id = st0.sector_id_nonce
      ∧ ∃ access, lookupSector st1.sectors id =
          some ⟨id, access, [], SealStatus.Pending⟩) := by
  constructor
  · unfold add_piece
    simp only [h]
    split
    · simp
    · rw [writeStage_nonce]
    · split
      · simp
      · rename_i dest st2 heq
        rw [writeStage_nonce]
        exact (provision_spec mgr _ dest st2 heq).2.1
  · intro st0 id st1 hp
    obtain ⟨h1, _, access, _, hsec⟩ := provision_spec mgr st0 id st1 hp
    refine ⟨h1, access, ?_⟩
    rw [hsec]
    exact lookup_insertSector_self st0.sectors id ⟨id, access, [], SealStatus.Pending⟩

/-- C6 witness: the 8-byte key `01..08` stores `0x0102030405060708` in the
nonce of the final state. -/
theorem nonce_stored_witness :
    ((add_piece testMgrOk 100 ⟨0, []⟩ [1, 2, 3, 4, 5, 6, 7, 8] [9, 9]).2).sector_id_nonce =
      0x0102030405060708 :=
  (nonce_stored_spec testMgrOk 100 ⟨0, []⟩ [1, 2, 3, 4, 5, 6, 7, 8] [9, 9]
    0x0102030405060708 (by decide)).1

/-- C10: for a content key shorter than 8 bytes, `add_piece` fails with the
derivation error and returns the `StagedState` completely unchanged, the
nonce included; the result is the same for every storage collaborator, so no
storage call is observable. -/
theorem short_key_no_effect (st : StagedState) (key : List Nat)
    (hk : key.length < 8) :
    ∀ mgr c bytes,
      add_piece mgr c st key bytes = (Except.error BuilderErr.invalidKey, st) := by
  intro mgr c bytes
  have h : get_sectorid_from_cid key = Except.error BuilderErr.invalidKey := by
    unfold get_sectorid_from_cid
    rw [if_pos hk]
  unfold add_piece
  simp only [h]

/-- C10 witness: a 7-byte key fails the whole call and leaves the state
untouched. -/
theorem short_key_no_effect_witness :
    add_piece testMgrOk 100 ⟨0, []⟩ [1, 2, 3, 4, 5, 6, 7] [9] =
      (Except.error BuilderErr.invalidKey, ⟨0, []⟩) :=
  short_key_no_effect ⟨0, []⟩ [1, 2, 3, 4, 5, 6, 7] (by decide) testMgrOk 100 [9]

theorem compute_destination_error (cs : List StagedSectorMetadata) (c p : Nat)
    (e : BuilderErr) (h : compute_destination_sector_id cs c p = Except.error e) :
    e = BuilderErr.pieceTooLarge p c := by
  unfold compute_destination_sector_id at h
  by_cases hgt : p > c
  · rw [if_pos hgt] at h
    simp only [Except.error.injEq] at h
    exact h.symm
  · rw [if_neg hgt] at h
    exact absurd h (by simp)

theorem get_sectorid_error (cid : List Nat) (e : BuilderErr)
    (h : get_sectorid_from_cid cid = Except.error e) : e = BuilderErr.invalidKey := by
  unfold get_sectorid_from_cid at h
  by_cases hlt : cid.length < 8
  · rw [if_pos hlt] at h
    simp only [Except.error.injEq] at h
    exact h.symm
  · rw [if_neg hlt] at h
    exact absurd h (by simp)

theorem provision_error (mgr : SectorManager) (st : StagedState) (e : BuilderErr)
    (h : provision_new_staged_sector mgr st = Except.error e) :
    mgr.new_staging_sector_access st.sector_id_nonce = Except.error e := by
  unfold provision_new_staged_sector at h
  cases ha : mgr.new_staging_sector_access st.sector_id_nonce with
  | error e2 =>
    simp only [ha] at h
    simp only [Except.error.injEq] at h
    rw [h]
  | ok access =>
    simp only [ha] at h
    exact absurd h (by simp)

theorem writeStage_no_notfound (mgr : SectorManager) (st : StagedState) (dest : Nat)
    (key bytes : List Nat) (s : StagedSectorMetadata)
    (hls : lookupSector st.sectors dest = some s)
    (hw : ∀ a b, mgr.write_and_preprocess a b ≠ Except.error BuilderErr.sectorNotFound) :
    (writeStage mgr st dest key bytes).1 ≠ Except.error BuilderErr.sectorNotFound := by
  cases hwr : mgr.write_and_preprocess s.sector_access bytes with
  | error e =>
    have he : e ≠ BuilderErr.sectorNotFound := by
      intro hh
      exact hw s.sector_access bytes (hh ▸ hwr)
    simp [writeStage, hls, hwr, he]
  | ok n =>
    by_cases hn : n = bytes.length
    · simp [writeStage, hls, hwr, hn]
    · simp [writeStage, hls, hwr, hn]

/-- C9: `add_piece` never fails with the state-map-lookup error
(`err_unrecov`): under the map invariant that every entry's `sector_id`
equals its key, and with a storage collaborator whose own failures are never
the internal `sectorNotFound` value (in the source they are a different
error type), every destination identifier — first-fit or freshly
provisioned — is a present key, so the `get_mut` lookup always succeeds and
that error branch is unreachable. -/
theorem sector_not_found_unreachable (mgr : SectorManager) (c : Nat)
    (st : StagedState) (key bytes : List Nat)
    (hinv : ∀ kv ∈ st.sectors, (kv.2).sector_id = kv.1)
    (hw : ∀ a b, mgr.write_and_preprocess a b ≠ Except.error BuilderErr.sectorNotFound)
    (ha : ∀ sid, mgr.new_staging_sector_access sid ≠ Except.error BuilderErr.sectorNotFound) :
    (add_piece mgr c st key bytes).1 ≠ Except.error BuilderErr.sectorNotFound := by
  cases hkey : get_sectorid_from_cid key with
  | error e =>
    have he : e = BuilderErr.invalidKey := get_sectorid_error key e hkey
    subst he
    simp [add_piece, hkey]
  | ok v =>
    unfold add_piece
    simp only [hkey]
    split
    · rename_i e heq
      have he := compute_destination_error _ _ _ _ heq
      subst he
      simp
    · rename_i dest heq
      obtain ⟨s, hsmem, hsid⟩ :=
        compute_destination_some _ c bytes.length dest heq
      obtain ⟨k, hkmem⟩ := mem_pendingCandidates _ s hsmem
      have hik : s.sector_id = k := hinv (k, s) hkmem
      obtain ⟨w, hwk⟩ := lookup_of_mem st.sectors k s hkmem
      have hls : lookupSector st.sectors dest = some w := by
        rw [← hsid, hik]
        exact hwk
      exact writeStage_no_notfound mgr _ dest key bytes w hls hw
    · split
      · rename_i e heq
        have hpe := provision_error mgr _ e heq
        have he : e ≠ BuilderErr.sectorNotFound := by
          intro hh
          exact ha _ (hh ▸ hpe)
        simp [he]
      · rename_i dest st2 heq
        obtain ⟨h1, _, access, _, hsec⟩ := provision_spec mgr _ dest st2 heq
        have hls : lookupSector st2.sectors dest =
            some ⟨dest, access, [], SealStatus.Pending⟩ := by
          rw [hsec]
          exact lookup_insertSector_self _ dest _
        exact writeStage_no_notfound mgr st2 dest key bytes _ hls hw

/-- C9 witness: on an empty state with the well-behaved test manager, the
call cannot produce the state-map-lookup error. -/
theorem sector_not_found_unreachable_witness :
    (add_piece testMgrOk 100 ⟨0, []⟩ [1, 2, 3, 4, 5, 6, 7, 8] [9]).1 ≠
      Except.error BuilderErr.sectorNotFound :=
  sector_not_found_unreachable testMgrOk 100 ⟨0, []⟩ [1, 2, 3, 4, 5, 6, 7, 8] [9]
    (by simp) (fun a b => by simp [testMgrOk]) (fun sid => by simp [testMgrOk])

/-- C4: once `add_piece` has derived the nonce and reached the write step —
through either route: placement found an existing destination sector, or
placement found no fit and provisioning installed a fresh one, `st2` being
the state entering the write — a write count `n` different from the declared
length fails the call with `IncompleteWrite` and no `PieceMetadata` is
appended to any sector's piece list (every sector of the final state keeps
the piece list it had in the input state, or — the freshly provisioned one —
has an empty piece list), while a matching count appends
`PieceMetadata {piece_key, num_bytes}` to the destination sector's piece
list and returns the destination sector's identifier. -/
theorem add_piece_write_check (mgr : SectorManager) (c : Nat) (st : StagedState)
    (key bytes : List Nat) (nonce dest : Nat) (st2 : StagedState)
    (s : StagedSectorMetadata) (n : Nat)
    (h1 : get_sectorid_from_cid key = Except.ok nonce)
    (h2 : compute_destination_sector_id
          (pendingCandidates { st with sector_id_nonce := nonce }) c bytes.length =
        Except.ok (some dest) ∧ st2 = { st with sector_id_nonce := nonce }
      ∨ compute_destination_sector_id
          (pendingCandidates { st with sector_id_nonce := nonce }) c bytes.length =
        Except.ok none
        ∧ provision_new_staged_sector mgr { st with sector_id_nonce := nonce } =
          Except.ok (dest, st2))
    (h3 : lookupSector st2.sectors dest = some s)
    (h4 : mgr.write_and_preprocess s.sector_access bytes = Except.ok n) :
    (n ≠ bytes.length →
      add_piece mgr c st key bytes =
        (Except.error (BuilderErr.incompleteWrite n bytes.length), st2)
      ∧ ∀ k m, lookupSector st2.sectors k = some m →
          (∃ m0, lookupSector st.sectors k = some m0 ∧ m.pieces = m0.pieces)
          ∨ m.pieces = [])
    ∧ (n = bytes.length →
      add_piece mgr c st key bytes =
        (Except.ok s.sector_id,
          { st2 with sectors := pushPiece st2.sectors dest ⟨key, bytes.length⟩ })
      ∧ lookupSector (pushPiece st2.sectors dest ⟨key, bytes.length⟩) dest =
          some { s with pieces := s.pieces ++ [⟨key, bytes.length⟩] }) := by
  have hred : add_piece mgr c st key bytes = writeStage mgr st2 dest key bytes := by
    rcases h2 with ⟨hcd, hst⟩ | ⟨hcd, hprov⟩
    · subst hst
      unfold add_piece
      simp only [h1, hcd]
    · unfold add_piece
      simp only [h1, hcd, hprov]
  have hnoapp : ∀ k m, lookupSector st2.sectors k = some m →
      (∃ m0, lookupSector st.sectors k = some m0 ∧ m.pieces = m0.pieces)
      ∨ m.pieces = [] := by
    rcases h2 with ⟨hcd, hst⟩ | ⟨hcd, hprov⟩
    · subst hst
      intro k m hk
      exact Or.inl ⟨m, hk, rfl⟩
    · obtain ⟨hid, _, access, _, hsec⟩ := provision_spec mgr _ dest st2 hprov
      intro k m hk
      by_cases hkd : k = dest
      · subst hkd
        rw [hsec, lookup_insertSector_self] at hk
        simp only [Option.some.injEq] at hk
        right
        rw [← hk]
      · rw [hsec, lookup_insertSector_ne _ _ _ _ hkd] at hk
        exact Or.inl ⟨m, hk, rfl⟩
  constructor
  · intro hn
    refine ⟨?_, hnoapp⟩
    rw [hred]
    unfold writeStage
    simp only [h3, h4]
    rw [if_pos hn]
  · intro hn
    constructor
    · rw [hred]
      unfold writeStage
      simp only [h3, h4]
      rw [if_neg (not_not_intro hn)]
    · exact lookup_pushPiece_self st2.sectors dest s ⟨key, bytes.length⟩ h3

/-- C4 witness: both routes are exercised. On an empty state the piece finds
no fit, a sector is provisioned under the derived identifier and the 2-byte
piece is appended to it with the well-behaved manager; on a state with an
existing Pending sector 1, the short-writing manager reports one byte too
few and the call fails with `IncompleteWrite`, appending nothing. -/
theorem add_piece_write_check_witness :
    (add_piece testMgrOk 100 ⟨0, []⟩ [1, 2, 3, 4, 5, 6, 7, 8] [9, 9] =
      (Except.ok 0x0102030405060708,
        ⟨0x0102030405060708,
          [(0x0102030405060708,
            ⟨0x0102030405060708, [], [⟨[1, 2, 3, 4, 5, 6, 7, 8], 2⟩],
              SealStatus.Pending⟩)]⟩)
      ∧ lookupSector
          (pushPiece
            [(0x0102030405060708,
              ⟨0x0102030405060708, [], [], SealStatus.Pending⟩)]
            0x0102030405060708 ⟨[1, 2, 3, 4, 5, 6, 7, 8], 2⟩)
          0x0102030405060708 =
          some ⟨0x0102030405060708, [], [⟨[1, 2, 3, 4, 5, 6, 7, 8], 2⟩],
            SealStatus.Pending⟩)
    ∧ add_piece testMgrShort 100 ⟨0, [(1, ⟨1, [97], [], SealStatus.Pending⟩)]⟩
        [1, 2, 3, 4, 5, 6, 7, 8] [9, 9] =
      (Except.error (BuilderErr.incompleteWrite 1 2),
        ⟨0x0102030405060708, [(1, ⟨1, [97], [], SealStatus.Pending⟩)]⟩) :=
  ⟨(add_piece_write_check testMgrOk 100 ⟨0, []⟩ [1, 2, 3, 4, 5, 6, 7, 8] [9, 9]
      0x0102030405060708 0x0102030405060708
      ⟨0x0102030405060708,
        [(0x0102030405060708, ⟨0x0102030405060708, [], [], SealStatus.Pending⟩)]⟩
      ⟨0x0102030405060708, [], [], SealStatus.Pending⟩ 2
      (by decide) (Or.inr ⟨by decide, by decide⟩) (by decide) rfl).2 rfl,
   ((add_piece_write_check testMgrShort 100
      ⟨0, [(1, ⟨1, [97], [], SealStatus.Pending⟩)]⟩
      [1, 2, 3, 4, 5, 6, 7, 8] [9, 9] 0x0102030405060708 1
      ⟨0x0102030405060708, [(1, ⟨1, [97], [], SealStatus.Pending⟩)]⟩
      ⟨1, [97], [], SealStatus.Pending⟩ 1
      (by decide) (Or.inl ⟨by decide, rfl⟩) (by decide) rfl).1 (by decide)).1⟩

/-- C2 counterexample: with the nonce's key already present in the map (a
Sealed sector with one piece under key 7, nonce 7), provisioning replaces the
existing entry with fresh metadata — the entry under identifier 7 after the
call differs from the one before, refuting the claim that an entry already
present under the new sector's identifier is never overwritten. -/
theorem provision_overwrites_counterexample :
    provision_new_staged_sector testMgrOk
        ⟨7, [(7, ⟨7, [99], [⟨[1], 1⟩], SealStatus.Sealed⟩)]⟩ =
      Except.ok (7, ⟨7, [(7, ⟨7, [], [], SealStatus.Pending⟩)]⟩)
    ∧ lookupSector [(7, ⟨7, [99], [⟨[1], 1⟩], SealStatus.Sealed⟩)] 7 =
        some ⟨7, [99], [⟨[1], 1⟩], SealStatus.Sealed⟩
    ∧ lookupSector [(7, ⟨7, [], [], SealStatus.Pending⟩)] 7 ≠
        some ⟨7, [99], [⟨[1], 1⟩], SealStatus.Sealed⟩ := by
  decide

/-- C2 amended: `provision_new_staged_sector` registers the fresh metadata
(empty pieces, `Pending`) under the current `sector_id_nonce` with HashMap
`insert` semantics — after the call the entry under that identifier is the
fresh one, so an entry already present under it is replaced, not preserved;
entries under every other identifier are unchanged. -/
theorem provision_insert_semantics (mgr : SectorManager) (st : StagedState)
    (id : Nat) (st1 : StagedState)
    (h : provision_new_staged_sector mgr st = Except.ok (id, st1)) :
    id = st.sector_id_nonce
    ∧ (∃ access, mgr.new_staging_sector_access st.sector_id_nonce = Except.ok access
        ∧ lookupSector st1.sectors id = some ⟨id, access, [], SealStatus.Pending⟩)
    ∧ (∀ k, k ≠ id → lookupSector st1.sectors k = lookupSector st.sectors k) := by
  obtain ⟨h1, _, access, ha, hsec⟩ := provision_spec mgr st id st1 h
  refine ⟨h1, ⟨access, ha, ?_⟩, ?_⟩
  · rw [hsec]
    exact lookup_insertSector_self _ _ _
  · intro k hk
    rw [hsec]
    exact lookup_insertSector_ne _ _ _ _ hk

/-- C2 amended witness: provisioning on the counterexample state replaces
the entry under 7 and touches no other key. -/
theorem provision_insert_semantics_witness :
    (7 : Nat) = (7 : Nat)
    ∧ (∃ access, testMgrOk.new_staging_sector_access 7 = Except.ok access
        ∧ lookupSector [(7, ⟨7, [], [], SealStatus.Pending⟩)] 7 =
            some ⟨7, access, [], SealStatus.Pending⟩)
    ∧ (∀ k, k ≠ 7 → lookupSector [(7, ⟨7, [], [], SealStatus.Pending⟩)] k =
        lookupSector [(7, ⟨7, [99], [⟨[1], 1⟩], SealStatus.Sealed⟩)] k) :=
  provision_insert_semantics testMgrOk
    ⟨7, [(7, ⟨7, [99], [⟨[1], 1⟩], SealStatus.Sealed⟩)]⟩
    7 ⟨7, [(7, ⟨7, [], [], SealStatus.Pending⟩)]⟩ (by decide)

/-- C7: serializing a `SectorBuilderState` with the persistence encoding,
storing it under a 31-byte prover identity, and then loading that identity
yields a state equal in all fields to the original. -/
theorem persist_load_roundtrip (s : SectorBuilderState) (kv : KeyValueStore)
    (prover_id : List Nat) (_hlen : prover_id.length = 31) :
    load_sector_builder_state (kvPut kv prover_id (serializeSectorBuilderState s))
      prover_id = Except.ok (some s) := by
  simp [load_sector_builder_state, kvPut, deserialize_serialize]

/-- C7 witness: a state with one sector holding one piece round-trips
through put-then-load under a 31-byte identity. -/
theorem persist_load_roundtrip_witness :
    load_sector_builder_state
      (kvPut ⟨fun _ => Except.ok none⟩ (List.replicate 31 2)
        (serializeSectorBuilderState
          ⟨⟨5, [(3, ⟨3, [97], [⟨[1, 2], 4⟩], SealStatus.Failed [8]⟩)]⟩⟩))
      (List.replicate 31 2) =
      Except.ok (some ⟨⟨5, [(3, ⟨3, [97], [⟨[1, 2], 4⟩], SealStatus.Failed [8]⟩)]⟩⟩) :=
  persist_load_roundtrip ⟨⟨5, [(3, ⟨3, [97], [⟨[1, 2], 4⟩], SealStatus.Failed [8]⟩)]⟩⟩
    ⟨fun _ => Except.ok none⟩ (List.replicate 31 2) (by decide)

/-- C8: `load_sector_builder_state` returns `Ok None` (no state, not an
error) when the key-value collaborator holds no value under the 31-byte
prover identity; when a value is present it returns the deserialized state,
failing with `CorruptState` exactly when deserialization of the payload
fails. -/
theorem load_sector_builder_state_spec (kv : KeyValueStore) (prover_id : List Nat)
    (_hlen : prover_id.length = 31) :
    (kv.get prover_id = Except.ok none →
      load_sector_builder_state kv prover_id = Except.ok none)
    ∧ (∀ val, kv.get prover_id = Except.ok (some val) →
      (deserializeSectorBuilderState val = none →
        load_sector_builder_state kv prover_id = Except.error BuilderErr.corruptState)
      ∧ (∀ s, deserializeSectorBuilderState val = some s →
        load_sector_builder_state kv prover_id = Except.ok (some s))) := by
  refine ⟨?_, ?_⟩
  · intro h
    unfold load_sector_builder_state
    simp only [h]
  · intro val h
    constructor
    · intro hd
      unfold load_sector_builder_state
      simp only [h, hd]
    · intro s hd
      unfold load_sector_builder_state
      simp only [h, hd]

/-- C8 witness: loading a never-persisted identity returns no state without
an error. -/
theorem load_sector_builder_state_witness :
    load_sector_builder_state ⟨fun _ => Except.ok none⟩ (List.replicate 31 0) =
      Except.ok none :=
  (load_sector_builder_state_spec ⟨fun _ => Except.ok none⟩ (List.replicate 31 0)
    (by decide)).1 rfl
